import Mathlib

/-!
Verification of the code-review automation repository (src/pr.ts, src/commit.ts,
src/release.ts) against its natural-language specification.

The three TypeScript entry points are embedded shallowly:
* external effects (the GitHub HTTP host and the model-generation call) are
  passed in as explicit oracles;
* every network request actually issued is recorded in a `requests` list and
  every generation session actually started is recorded in a `sessions` list;
* `console.log` / `console.error` become `stdout` / `stderr` line lists and
  `process.exit` / an uncaught module-level throw become an `exitCode`;
* JavaScript string primitives used by the source (`String.prototype.split`
  with separator "...", `String.prototype.includes`, `parseInt(s, 10)`, and
  truthiness of possibly-undefined environment strings) are reproduced
  character by character.
-/

namespace CodeReview

/-! ## JavaScript string primitives -/

/-- The three-character separator "..." used by src/commit.ts. -/
def dots : List Char := ['.', '.', '.']

/-- Character-level model of JavaScript `s.includes('...')`. -/
def containsDots : List Char → Bool
  | [] => false
  | [_] => false
  | [_, _] => false
  | c1 :: c2 :: c3 :: rest =>
    if c1 = '.' ∧ c2 = '.' ∧ c3 = '.' then true else containsDots (c2 :: c3 :: rest)

/-- Character-level model of JavaScript `s.split('...')`: scan left to right,
cutting at every non-overlapping occurrence of the separator. -/
def splitOnDots : List Char → List (List Char)
  | [] => [[]]
  | [c] => [[c]]
  | [c1, c2] => [[c1, c2]]
  | c1 :: c2 :: c3 :: rest =>
    if c1 = '.' ∧ c2 = '.' ∧ c3 = '.' then
      [] :: splitOnDots rest
    else
      match splitOnDots (c2 :: c3 :: rest) with
      | p :: ps => (c1 :: p) :: ps
      | [] => [[c1]]

/-- String-level `s.includes('...')`. -/
def jsIncludesDots (s : String) : Bool := containsDots s.data

/-- String-level `s.split('...')`. -/
def jsSplitDots (s : String) : List String := (splitOnDots s.data).map String.mk

/-- Splitting a string at the FIRST occurrence of "..." only, returning the
part before it and the whole remainder after it ; `none` when "..." does not
occur. This is not a source function: it follows the words of the
specification ("splits on the first occurrence"), to be compared with the
source's `split('...')` behaviour. -/
def splitAtFirstDotsChars : List Char → Option (List Char × List Char)
  | [] => none
  | [_] => none
  | [_, _] => none
  | c1 :: c2 :: c3 :: rest =>
    if c1 = '.' ∧ c2 = '.' ∧ c3 = '.' then some ([], rest)
    else
      match splitAtFirstDotsChars (c2 :: c3 :: rest) with
      | some (p, r) => some (c1 :: p, r)
      | none => none

/-- JavaScript whitespace accepted by `parseInt` (the forms relevant here). -/
def isJsWs (c : Char) : Bool := c = ' ' ∨ c = '\t' ∨ c = '\n' ∨ c = '\r'

/-- Drop leading whitespace, as `parseInt` does. -/
def skipWsChars : List Char → List Char
  | [] => []
  | c :: r => if isJsWs c then skipWsChars r else c :: r

/-- Decimal digit test. -/
def isDigit09 (c : Char) : Bool := '0' ≤ c ∧ c ≤ '9'

/-- Accumulate the value of the longest leading run of decimal digits,
stopping at the first non-digit, as `parseInt(s, 10)` does. -/
def digitsVal : List Char → Nat → Nat
  | [], acc => acc
  | c :: r, acc => if isDigit09 c then digitsVal r (acc * 10 + (c.toNat - 48)) else acc

/-- Model of JavaScript `parseInt(s, 10)`: skip leading whitespace, read an
optional sign, then parse the longest leading digit run; `none` models `NaN`
(no digit could be read at all). Trailing garbage after at least one digit is
ignored, exactly as in JavaScript. -/
def jsParseInt10 (s : String) : Option Int :=
  let cs := skipWsChars s.data
  let signNeg : Bool := match cs with | '-' :: _ => true | _ => false
  let cs2 : List Char := match cs with | '-' :: r => r | '+' :: r => r | _ => cs
  match cs2 with
  | [] => none
  | c :: _ =>
    if isDigit09 c then
      some (if signNeg then -(Int.ofNat (digitsVal cs2 0)) else Int.ofNat (digitsVal cs2 0))
    else none

/-- JavaScript truthiness of a possibly-undefined environment string:
`undefined` and the empty string are falsy. -/
def truthy : Option String → Bool
  | none => false
  | some s => if s = "" then false else true

/-- A numeral in the ordinary sense, following the words of claim C9
("non-numeric PR number"): an optional sign followed by one or more decimal
digits and nothing else. This is a specification-side definition, to be
compared with what the source accepts through `parseInt`. -/
def specNumericString (s : String) : Bool :=
  let cs : List Char := match s.data with | '-' :: r => r | '+' :: r => r | r => r
  (!cs.isEmpty) && cs.all isDigit09

/-! ## HTTP and effect model -/

/-- One network request, as assembled by the source before calling `fetch`. -/
structure Request where
  method : String
  url : String
  accept : Option String
  authorization : Option String
deriving DecidableEq, Repr

/-- The response the host returns for a request. `commitsField` is the
`commits` array of the parsed JSON body projected to each element's `sha`
(the only part of the compare-endpoint body the source reads); `body` is the
raw text used by the diff endpoints. -/
structure HttpResponse where
  ok : Bool
  status : Nat
  statusText : String
  body : String
  commitsField : Option (List String)
deriving Repr

/-- Observable outcome of one program run: network requests issued directly
by the orchestration code, identifiers of the generation sessions started
(each such session is the only other place a network call can originate),
printed output, and the process exit code. -/
structure RunResult where
  requests : List Request
  sessions : List String
  stdout : List String
  stderr : List String
  exitCode : Nat
deriving DecidableEq, Repr

/-- Outcome of a module-level configuration throw: Node prints the error and
the process exits with status 1 before anything else runs. -/
def configAbort (msg : String) : RunResult :=
  { requests := [], sessions := [], stdout := [], stderr := [msg], exitCode := 1 }

/-! ## src/pr.ts -/

/-- Environment read by src/pr.ts. -/
structure PrEnv where
  GITHUB_OWNER : Option String
  GITHUB_REPO : Option String
  GITHUB_TOKEN : Option String

/-- The Accept header requesting raw diff text. -/
def acceptDiff : String := "application/vnd.github.v3.diff"

/-- URL assembled by the `fetchPullRequestDiff` tool. -/
def prDiffUrl (owner repo : String) (pullNumber : Int) : String :=
  "https://api.github.com/repos/" ++ owner ++ "/" ++ repo ++ "/pulls/" ++ toString pullNumber

/-- The `execute` function of the `fetchPullRequestDiff` tool (src/pr.ts):
issue one GET request with the diff Accept header and the bearer credential,
return the body on a 2xx response, otherwise throw. The list of requests it
issued is returned alongside the result. -/
def fetchPullRequestDiff (token : String) (net : Request → HttpResponse)
    (owner repo : String) (pullNumber : Int) : List Request × Except String String :=
  let req : Request :=
    { method := "GET"
      url := prDiffUrl owner repo pullNumber
      accept := some acceptDiff
      authorization := some ("Bearer " ++ token) }
  let resp := net req
  ([req],
    if resp.ok then Except.ok resp.body
    else Except.error ("Failed to fetch PR diff for #" ++ toString pullNumber ++ ": "
      ++ toString resp.status ++ " - " ++ resp.statusText))

/-- Usage line printed by src/pr.ts when the positional argument is missing. -/
def prUsageMsg : String := "Usage: npx tsx --env-file=.env src/pr.ts <pull-number>"

/-- Body of `runCodeReview` (src/pr.ts): one generation session for the given
PR number, entirely inside a try/catch whose handler logs and returns. The
generation call (model plus its optional in-session tool invocation) is the
oracle `generate`; it may throw, which the catch turns into a stderr line. -/
def runCodeReview (generate : Int → Except String String) (pullNumber : Int) : RunResult :=
  match generate pullNumber with
  | Except.ok text =>
    { requests := [], sessions := [toString pullNumber],
      stdout := ["=== AI Review Summary ===", text, "========================="],
      stderr := [], exitCode := 0 }
  | Except.error e =>
    { requests := [], sessions := [toString pullNumber], stdout := [],
      stderr := ["Error running code review agent: " ++ e], exitCode := 0 }

/-- The whole src/pr.ts module: environment checks (each a fatal throw),
then CLI-argument validation (usage / invalid-number exits), then
`runCodeReview`. -/
def prProgram (env : PrEnv) (argv2 : Option String)
    (generate : Int → Except String String) : RunResult :=
  if truthy env.GITHUB_OWNER = false then
    configAbort "Environment variable GITHUB_OWNER is not set."
  else if truthy env.GITHUB_REPO = false then
    configAbort "Environment variable GITHUB_REPO is not set."
  else if truthy env.GITHUB_TOKEN = false then
    configAbort "Environment variable GITHUB_TOKEN is not set."
  else if truthy argv2 = false then
    { requests := [], sessions := [], stdout := [], stderr := [prUsageMsg], exitCode := 1 }
  else
    match jsParseInt10 (argv2.getD "") with
    | none =>
      { requests := [], sessions := [], stdout := [],
        stderr := ["Invalid pull request number: " ++ argv2.getD ""], exitCode := 1 }
    | some n => runCodeReview generate n

/-! ## src/commit.ts -/

/-- Environment read by src/commit.ts. -/
structure CommitEnv where
  GITHUB_OWNER : Option String
  GITHUB_REPO : Option String
  GITHUB_TOKEN : Option String
  SEMAPHORE_GIT_SHA : Option String
  SEMAPHORE_GIT_COMMIT_RANGE : Option String

/-- The compare-endpoint request assembled by `runCommitReview`. -/
def compareRequest (owner repo token base hd : String) : Request :=
  { method := "GET"
    url := "https://api.github.com/repos/" ++ owner ++ "/" ++ repo ++ "/compare/"
      ++ base ++ "..." ++ hd
    accept := some "application/vnd.github.v3+json"
    authorization := some ("Bearer " ++ token) }

/-- The compare request issued for a given raw range string: base and head are
the first two components of the JavaScript split on "...". -/
def compareReqFor (owner repo token rs : String) : Request :=
  compareRequest owner repo token ((jsSplitDots rs).getD 0 "") ((jsSplitDots rs).getD 1 "")

/-- Commit-range resolution, as performed at the top of `runCommitReview`
(src/commit.ts): when the range variable is truthy and contains "...",
split it and call the compare endpoint, demanding a present, non-empty
`commits` list; otherwise fall back to the single-commit variable. Returns
the requests issued together with either the resolved target list or the
thrown error message. -/
def resolveCommits (owner repo token : String) (commitRange gitSha : Option String)
    (net : Request → HttpResponse) : List Request × Except String (List String) :=
  let rangeStr := commitRange.getD ""
  if truthy commitRange && jsIncludesDots rangeStr then
    let req := compareReqFor owner repo token rangeStr
    let resp := net req
    ([req],
      if resp.ok = false then
        Except.error ("Failed to compare commits: " ++ toString resp.status ++ " - "
          ++ resp.statusText)
      else
        match resp.commitsField with
        | none => Except.error "No commits found in the specified commit range."
        | some commits =>
          if commits.isEmpty then
            Except.error "No commits available in the comparison data."
          else Except.ok commits)
  else
    let singleCommit := if truthy commitRange then commitRange else gitSha
    ([],
      if truthy singleCommit = false then
        Except.error "No commit or commit range found in environment variables."
      else Except.ok [singleCommit.getD ""])

/-- The banner lines printed for one reviewed commit. -/
def reviewBanner (sha text : String) : List String :=
  ["--- Review for commit " ++ sha ++ " ---", text, "---------------------------------"]

/-- Outcome of the per-commit review loop: sessions started, stdout lines
printed, and the error that escaped the loop if one did. -/
structure LoopOut where
  sessions : List String
  lines : List String
  thrown : Option String
deriving DecidableEq, Repr

/-- The `for (const sha of commitsToReview)` loop of `runCommitReview`:
each iteration starts one generation session and prints its banner and text.
There is no per-iteration catch in the source, so a thrown error ends the
loop at once, carrying away the remaining targets. -/
def reviewCommits (generate : String → Except String String) : List String → LoopOut
  | [] => { sessions := [], lines := [], thrown := none }
  | sha :: rest =>
    match generate sha with
    | Except.error e => { sessions := [sha], lines := [], thrown := some e }
    | Except.ok text =>
      let lo := reviewCommits generate rest
      { sessions := sha :: lo.sessions,
        lines := reviewBanner sha text ++ lo.lines,
        thrown := lo.thrown }

/-- Header printed before the commit loop. -/
def commitHeader : String := "=== AI Commit-by-Commit Review ==="

/-- Footer printed after the commit loop completes normally. -/
def commitFooter : String := "================================="

/-- The single catch handler of `runCommitReview`, which logs the error and
returns normally. -/
def commitCatchMsg (e : String) : String :=
  "Error running commit-by-commit review agent: " ++ e

/-- Body of `runCommitReview` (src/commit.ts): resolve the targets, print the
header, review each target in resolved order, print the footer. The whole
body sits inside one try/catch, so any thrown error (resolution or
in-loop) reaches the single handler, which logs it and returns; the process
still exits with status 0. -/
def runCommitReview (owner repo token : String) (commitRange gitSha : Option String)
    (net : Request → HttpResponse) (generate : String → Except String String) : RunResult :=
  let r := resolveCommits owner repo token commitRange gitSha net
  match r.2 with
  | Except.error e =>
    { requests := r.1, sessions := [], stdout := [],
      stderr := [commitCatchMsg e], exitCode := 0 }
  | Except.ok commits =>
    let lo := reviewCommits generate commits
    match lo.thrown with
    | none =>
      { requests := r.1, sessions := lo.sessions,
        stdout := commitHeader :: (lo.lines ++ [commitFooter]),
        stderr := [], exitCode := 0 }
    | some e =>
      { requests := r.1, sessions := lo.sessions,
        stdout := commitHeader :: lo.lines,
        stderr := [commitCatchMsg e], exitCode := 0 }

/-- The whole src/commit.ts module: environment checks, then
`runCommitReview`. -/
def commitProgram (env : CommitEnv) (net : Request → HttpResponse)
    (generate : String → Except String String) : RunResult :=
  if truthy env.GITHUB_OWNER = false then
    configAbort "Environment variable GITHUB_OWNER is not set."
  else if truthy env.GITHUB_REPO = false then
    configAbort "Environment variable GITHUB_REPO is not set."
  else if truthy env.GITHUB_TOKEN = false then
    configAbort "Environment variable GITHUB_TOKEN is not set."
  else
    runCommitReview (env.GITHUB_OWNER.getD "") (env.GITHUB_REPO.getD "")
      (env.GITHUB_TOKEN.getD "") env.SEMAPHORE_GIT_COMMIT_RANGE env.SEMAPHORE_GIT_SHA
      net generate

/-! ## src/release.ts -/

/-- Environment read by src/release.ts. -/
structure ReleaseEnv where
  GITHUB_OWNER : Option String
  GITHUB_REPO : Option String
  GITHUB_TOKEN : Option String
  OPENAI_API_KEY : Option String

/-- Body of `generateReleaseNotes` (src/release.ts): one generation session,
entirely inside a try/catch whose handler logs and returns. -/
def generateReleaseNotes (generate : Unit → Except String String) : RunResult :=
  match generate () with
  | Except.ok text =>
    { requests := [], sessions := ["release-notes"],
      stdout := ["=== AI-Generated Release Notes ===", text, "=================================="],
      stderr := [], exitCode := 0 }
  | Except.error e =>
    { requests := [], sessions := ["release-notes"], stdout := [],
      stderr := ["Error generating release notes: " ++ e], exitCode := 0 }

/-- The whole src/release.ts module: combined GitHub-environment check, then
the model-credential check, then `generateReleaseNotes`. -/
def releaseProgram (env : ReleaseEnv) (generate : Unit → Except String String) : RunResult :=
  if (truthy env.GITHUB_OWNER && truthy env.GITHUB_REPO && truthy env.GITHUB_TOKEN) = false then
    configAbort "Missing required environment variables for GitHub access."
  else if truthy env.OPENAI_API_KEY = false then
    configAbort "Missing OPENAI_API_KEY environment variable."
  else
    generateReleaseNotes generate

/-! ## The bounded generation session

The step loop itself lives in the external model SDK (the `generateText`
call), not in this repository; only the budget `maxSteps: 2` appears in the
three source files. The loop is therefore modelled from the spec. -/

/-- What the model elects to do on one round trip. -/
inductive ModelAction where
  | callTool : ModelAction
  | finalAnswer : String → ModelAction

/-- The step budget passed as `maxSteps` at every `generateText` call site in
src/pr.ts, src/commit.ts and src/release.ts. -/
def configuredMaxSteps : Nat := 2

/-- Modelled from the spec: the bounded interaction loop of the external
generation call, which is absent from src/ (only its `maxSteps` argument is
in the source). Following the specification's state machine: each round trip
consults the model with the tool results obtained so far; the model may
request the registered tool, whose synchronous result is fed back, or produce
the final answer, which ends the session; the step budget is a hard ceiling,
so a tool request on the final permitted step is refused rather than granted
a further round trip. Returns (round trips made, tool invocations executed,
final answer if one was produced). -/
def sessionRun (policy : List String → ModelAction) (toolExec : Unit → String) :
    Nat → List String → Nat × Nat × Option String
  | 0, _ => (0, 0, none)
  | Nat.succ n, ctx =>
    match policy ctx with
    | ModelAction.finalAnswer t => (1, 0, some t)
    | ModelAction.callTool =>
      match n with
      | 0 => (1, 0, none)
      | Nat.succ m =>
        let r := toolExec ()
        let rest := sessionRun policy toolExec (Nat.succ m) (ctx ++ [r])
        (rest.1 + 1, rest.2.1 + 1, rest.2.2)

/-! ## Helper lemmas on the string primitives -/

theorem splitOnDots_ne_nil (cs : List Char) : splitOnDots cs ≠ [] := by
  induction cs using splitOnDots.induct with
  | case1 => simp [splitOnDots]
  | case2 c => simp [splitOnDots]
  | case3 c1 c2 => simp [splitOnDots]
  | case4 c1 c2 c3 rest h ih => simp [splitOnDots, h]
  | case5 c1 c2 c3 rest h p ps hsp ih =>
    simp only [splitOnDots, if_neg h, hsp]
    simp
  | case6 c1 c2 c3 rest h hsp ih => exact absurd hsp ih

theorem containsDots_false_split (cs : List Char) (h : containsDots cs = false) :
    splitOnDots cs = [cs] := by
  induction cs using splitOnDots.induct with
  | case1 => simp [splitOnDots]
  | case2 c => simp [splitOnDots]
  | case3 c1 c2 => simp [splitOnDots]
  | case4 c1 c2 c3 rest hc ih => simp [containsDots, hc] at h
  | case5 c1 c2 c3 rest hc p ps hsp ih =>
    simp only [containsDots, if_neg hc] at h
    simp only [splitOnDots, if_neg hc, hsp]
    rw [ih h] at hsp
    injection hsp with h1 h2
    subst h1; subst h2; rfl
  | case6 c1 c2 c3 rest hc hsp ih => exact absurd hsp (splitOnDots_ne_nil _)

theorem containsDots_iff_splitAtFirst (cs : List Char) :
    containsDots cs = true ↔ (splitAtFirstDotsChars cs).isSome := by
  induction cs using splitAtFirstDotsChars.induct with
  | case1 => simp [containsDots, splitAtFirstDotsChars]
  | case2 c => simp [containsDots, splitAtFirstDotsChars]
  | case3 c1 c2 => simp [containsDots, splitAtFirstDotsChars]
  | case4 c1 c2 c3 rest hc => simp [containsDots, splitAtFirstDotsChars, hc]
  | case5 c1 c2 c3 rest hc p r hsp ih =>
    simp only [containsDots, if_neg hc, splitAtFirstDotsChars, hsp]
    simp only [hsp, Option.isSome] at ih
    simp [ih]
  | case6 c1 c2 c3 rest hc hsp ih =>
    simp only [containsDots, if_neg hc, splitAtFirstDotsChars, hsp]
    simp only [hsp, Option.isSome] at ih
    simp [ih]

theorem splitAtFirst_spec (cs p rest : List Char)
    (h : splitAtFirstDotsChars cs = some (p, rest)) :
    splitOnDots cs = p :: splitOnDots rest ∧ cs = p ++ dots ++ rest ∧
      containsDots p = false := by
  induction cs using splitAtFirstDotsChars.induct generalizing p rest with
  | case1 => simp [splitAtFirstDotsChars] at h
  | case2 c => simp [splitAtFirstDotsChars] at h
  | case3 c1 c2 => simp [splitAtFirstDotsChars] at h
  | case4 c1 c2 c3 rest' hc =>
    simp only [splitAtFirstDotsChars, if_pos hc, Option.some.injEq, Prod.mk.injEq] at h
    obtain ⟨h1, h2⟩ := h
    subst h1; subst h2
    obtain ⟨e1, e2, e3⟩ := hc
    subst e1; subst e2; subst e3
    refine ⟨by simp [splitOnDots], by simp [dots], by simp [containsDots]⟩
  | case5 c1 c2 c3 rest' hc q r hsp ih =>
    simp only [splitAtFirstDotsChars, if_neg hc, hsp, Option.some.injEq, Prod.mk.injEq] at h
    obtain ⟨rfl, rfl⟩ := h
    obtain ⟨hsplit, heq, hcontains⟩ := ih q r hsp
    refine ⟨?_, ?_, ?_⟩
    · simp only [splitOnDots, if_neg hc, hsplit]
    · simp only [List.cons_append, heq]
    · -- q itself has no "..." and c1 :: q cannot start with "..." because the
      -- input would then have matched the separator at its head
      rcases q with _ | ⟨d1, qt⟩
      · simp [containsDots]
      · rcases qt with _ | ⟨d2, qt2⟩
        · simp [containsDots]
        · have hd : c2 = d1 ∧ c3 = d2 := by
            have hthis : c2 :: c3 :: rest' = (d1 :: d2 :: qt2) ++ dots ++ r := heq
            simp only [List.cons_append] at hthis
            exact ⟨(List.cons.injEq _ _ _ _).mp hthis |>.1, by
              have h2 := (List.cons.injEq _ _ _ _).mp hthis |>.2
              exact ((List.cons.injEq _ _ _ _).mp h2).1⟩
          simp only [containsDots, hcontains]
          rw [if_neg]
          intro ⟨e1, e2, e3⟩
          exact hc ⟨e1, hd.1 ▸ e2, hd.2 ▸ e3⟩
  | case6 c1 c2 c3 rest' hc hsp ih =>
    simp only [splitAtFirstDotsChars, if_neg hc, hsp] at h
    exact Option.noConfusion h

/-! ## Helper lemmas on the commit-review loop -/

/-- The stdout banner lines produced by reviewing the given commits with the
given review texts. -/
def bannersFor (txt : String → String) : List String → List String
  | [] => []
  | c :: r => reviewBanner c (txt c) ++ bannersFor txt r

theorem reviewCommits_all_ok (gen : String → Except String String) (txt : String → String)
    (l : List String) (h : ∀ c ∈ l, gen c = Except.ok (txt c)) :
    reviewCommits gen l = { sessions := l, lines := bannersFor txt l, thrown := none } := by
  induction l with
  | nil => simp [reviewCommits, bannersFor]
  | cons sha rest ih =>
    have hsha := h sha (by simp)
    have hrest : ∀ c ∈ rest, gen c = Except.ok (txt c) := fun c hc => h c (by simp [hc])
    simp only [reviewCommits, hsha, ih hrest, bannersFor]

theorem reviewCommits_fails_at (gen : String → Except String String) (txt : String → String)
    (pre post : List String) (bad e : String)
    (hpre : ∀ c ∈ pre, gen c = Except.ok (txt c)) (hbad : gen bad = Except.error e) :
    reviewCommits gen (pre ++ bad :: post) =
      { sessions := pre ++ [bad], lines := bannersFor txt pre, thrown := some e } := by
  induction pre with
  | nil => simp [reviewCommits, hbad, bannersFor]
  | cons c pre' ih =>
    have hc := hpre c (by simp)
    have hpre' : ∀ x ∈ pre', gen x = Except.ok (txt x) := fun x hx => hpre x (by simp [hx])
    simp only [List.cons_append, reviewCommits, hc, bannersFor, List.append_eq]
    rw [ih hpre']

/-! ## Concrete oracles used by witnesses and counterexamples -/

deriving instance DecidableEq for Except

/-- A pr.ts environment with every required value present. -/
def fullPrEnv : PrEnv :=
  { GITHUB_OWNER := some "acme", GITHUB_REPO := some "widgets", GITHUB_TOKEN := some "tok" }

/-- A commit.ts environment whose commit range is the given string. -/
def commitEnvRange (r : String) : CommitEnv :=
  { GITHUB_OWNER := some "acme", GITHUB_REPO := some "widgets", GITHUB_TOKEN := some "tok",
    SEMAPHORE_GIT_SHA := none, SEMAPHORE_GIT_COMMIT_RANGE := some r }

/-- A host that answers every request successfully with three commits. -/
def netThreeCommits : Request → HttpResponse := fun _ =>
  { ok := true, status := 200, statusText := "OK", body := "",
    commitsField := some ["c1", "c2", "c3"] }

/-- A host whose compare response carries an empty commits list. -/
def netEmptyCompare : Request → HttpResponse := fun _ =>
  { ok := true, status := 200, statusText := "OK", body := "", commitsField := some [] }

/-- A generation oracle that always succeeds (PR mode). -/
def okGenInt : Int → Except String String := fun _ => Except.ok "review text"

/-- A generation oracle that always succeeds (commit mode). -/
def okGenStr : String → Except String String := fun sha => Except.ok ("review of " ++ sha)

/-- A generation oracle whose diff fetch fails for commit c2 only. -/
def failOnC2Gen : String → Except String String := fun sha =>
  if sha = "c2" then Except.error "Failed to fetch commit diff for c2: 404 - Not Found"
  else Except.ok ("review of " ++ sha)

/-- A generation oracle that always succeeds (release mode). -/
def okGenUnit : Unit → Except String String := fun _ => Except.ok "release notes"

/-! ## Claim C3 -/

/-- Claim C3: with the step budget `maxSteps: 2` passed at every
`generateText` call site, a generation session makes at most two model round
trips and executes at most one tool invocation, whatever the model elects to
do; in particular a model that always requests another tool call obtains
exactly one tool execution and the session still terminates after step 2
with no final answer. -/
theorem c3_step_budget (policy : List String → ModelAction) (toolExec : Unit → String) :
    (sessionRun policy toolExec configuredMaxSteps []).2.1 ≤ 1 ∧
    (sessionRun policy toolExec configuredMaxSteps []).1 ≤ 2 ∧
    sessionRun (fun _ => ModelAction.callTool) toolExec configuredMaxSteps [] = (2, 1, none) := by
  have hmain : (sessionRun policy toolExec (Nat.succ (Nat.succ Nat.zero)) []).2.1 ≤ 1 ∧
      (sessionRun policy toolExec (Nat.succ (Nat.succ Nat.zero)) []).1 ≤ 2 := by
    cases hp : policy [] with
    | finalAnswer t => simp [sessionRun, hp]
    | callTool =>
      cases hp2 : policy [toolExec ()] with
      | finalAnswer t => simp [sessionRun, hp, hp2]
      | callTool => simp [sessionRun, hp, hp2]
  exact ⟨hmain.1, hmain.2, rfl⟩

/-! ## Claim C7 -/

/-- The exact request claim C7 expects for owner acme, repo widgets, PR 42. -/
def c7Request (token : String) : Request :=
  { method := "GET", url := "https://api.github.com/repos/acme/widgets/pulls/42",
    accept := some acceptDiff, authorization := some ("Bearer " ++ token) }

/-- Claim C7: invoking the PR diff-fetch tool with owner acme, repo widgets
and pull number 42 issues exactly one GET request, to
/repos/acme/widgets/pulls/42, carrying the diff Accept header and the
configured bearer credential, and on a successful response returns the
response body as the raw diff text. -/
theorem c7_fetch_request (token : String) (net : Request → HttpResponse)
    (hok : (net (c7Request token)).ok = true) :
    (fetchPullRequestDiff token net "acme" "widgets" 42).1 = [c7Request token] ∧
    (fetchPullRequestDiff token net "acme" "widgets" 42).2 =
      Except.ok (net (c7Request token)).body := by
  have hurl : prDiffUrl "acme" "widgets" 42 =
      "https://api.github.com/repos/acme/widgets/pulls/42" := by decide
  simp only [fetchPullRequestDiff]
  rw [hurl]
  simp only [c7Request] at hok ⊢
  refine ⟨trivial, ?_⟩
  rw [if_pos hok]

/-- Witness for C7 at a successful concrete host. -/
def netDiffOk : Request → HttpResponse := fun _ =>
  { ok := true, status := 200, statusText := "OK", body := "DIFF", commitsField := none }

/-- Witness for C7: the hypotheses hold at a concrete host and the tool
returns its body. -/
theorem c7_fetch_request_witness :
    (netDiffOk (c7Request "tok")).ok = true ∧
    ((fetchPullRequestDiff "tok" netDiffOk "acme" "widgets" 42).1 = [c7Request "tok"] ∧
      (fetchPullRequestDiff "tok" netDiffOk "acme" "widgets" 42).2 =
        Except.ok (netDiffOk (c7Request "tok")).body) :=
  ⟨rfl, c7_fetch_request "tok" netDiffOk rfl⟩

/-! ## Claim C9 -/

/-- Counterexample to claim C9: the argument "12abc" is not a numeral, yet
the program does not print a usage message and exit non-zero before network
activity; `parseInt("12abc", 10)` yields 12, so a full review session for
PR 12 is started and the process ends with status 0 and an empty stderr. -/
theorem c9_counterexample :
    specNumericString "12abc" = false ∧
    (prProgram fullPrEnv (some "12abc") okGenInt).exitCode = 0 ∧
    (prProgram fullPrEnv (some "12abc") okGenInt).sessions = ["12"] ∧
    (prProgram fullPrEnv (some "12abc") okGenInt).stderr = [] := by decide

/-- Claim C9 as amended: in PR-review mode, when the positional argument is
missing (or empty) or `parseInt(arg, 10)` can parse no leading decimal
integer from it (NaN), the program prints a usage or validation message to
stderr and terminates with exit status 1 before starting any session or
issuing any network request. (An argument with a parseable numeric prefix
followed by junk, such as "12abc", is instead accepted, with the prefix as
the PR number.) -/
theorem c9_amended (env : PrEnv) (argv2 : Option String) (generate : Int → Except String String)
    (h1 : truthy env.GITHUB_OWNER = true) (h2 : truthy env.GITHUB_REPO = true)
    (h3 : truthy env.GITHUB_TOKEN = true)
    (h4 : truthy argv2 = false ∨ jsParseInt10 (argv2.getD "") = none) :
    (prProgram env argv2 generate).exitCode = 1 ∧
    (prProgram env argv2 generate).sessions = [] ∧
    (prProgram env argv2 generate).requests = [] ∧
    (prProgram env argv2 generate).stderr ≠ [] := by
  rcases h4 with h4 | h4
  · simp [prProgram, h1, h2, h3, h4]
  · cases hb : truthy argv2 with
    | false => simp [prProgram, h1, h2, h3, hb]
    | true => simp [prProgram, h1, h2, h3, hb, h4]

/-- Witness for C9 (amended) at the argument "abc", which has no digit at
all. -/
theorem c9_amended_witness :
    truthy fullPrEnv.GITHUB_OWNER = true ∧ jsParseInt10 ((some "abc").getD "") = none ∧
    ((prProgram fullPrEnv (some "abc") okGenInt).exitCode = 1 ∧
      (prProgram fullPrEnv (some "abc") okGenInt).sessions = [] ∧
      (prProgram fullPrEnv (some "abc") okGenInt).requests = [] ∧
      (prProgram fullPrEnv (some "abc") okGenInt).stderr ≠ []) :=
  ⟨by decide, by decide,
    c9_amended fullPrEnv (some "abc") okGenInt (by decide) (by decide) (by decide)
      (Or.inr (by decide))⟩

/-! ## Claim C2 -/

/-- Counterexample to claim C2: for the range "a...b...c", a split on the
FIRST occurrence of "..." would give base "a" and head "b...c", but the code
splits on every occurrence and takes the first two components, so the
compare request it issues carries base "a" and head "b" — not the pair the
claim predicts. -/
theorem c2_counterexample :
    splitAtFirstDotsChars ("a...b...c").data = some ("a".data, "b...c".data) ∧
    (commitProgram (commitEnvRange "a...b...c") netThreeCommits okGenStr).requests =
      [compareRequest "acme" "widgets" "tok" "a" "b"] ∧
    compareRequest "acme" "widgets" "tok" "a" "b" ≠
      compareRequest "acme" "widgets" "tok" "a" "b...c" := by decide

/-- The component between the first occurrence of "..." and the next one,
or the whole remainder when "..." occurs no further: what JavaScript's
`split('...')` yields as second component. -/
def headComponent (rest : List Char) : List Char :=
  match splitAtFirstDotsChars rest with
  | some (q, _) => q
  | none => rest

/-- Claim C2 as amended: for every non-empty range string containing "...",
the code splits on every occurrence of "..."; the base passed to the compare
operation is the (possibly empty) component before the first occurrence and
the head is the (possibly empty) component between the first occurrence and
the next (the entire remainder when "..." occurs only once); in particular
splitting "abc...def" yields base "abc" and head "def". -/
theorem c2_amended (ow rp tk rs : String) (gitSha : Option String)
    (net : Request → HttpResponse) (hne : rs ≠ "")
    (p rest : List Char) (hsp : splitAtFirstDotsChars rs.data = some (p, rest)) :
    (resolveCommits ow rp tk (some rs) gitSha net).1 =
      [compareRequest ow rp tk (String.mk p) (String.mk (headComponent rest))] ∧
    rs.data = p ++ dots ++ rest ∧ containsDots p = false ∧
    jsSplitDots "abc...def" = ["abc", "def"] := by
  obtain ⟨hsplit, heq, hcp⟩ := splitAtFirst_spec rs.data p rest hsp
  have hinc : jsIncludesDots rs = true := by
    rw [jsIncludesDots, containsDots_iff_splitAtFirst, hsp]
    rfl
  have htr : truthy (some rs) = true := by simp [truthy, hne]
  have hbase : (jsSplitDots rs).getD 0 "" = String.mk p := by
    simp [jsSplitDots, hsplit]
  have hhd : (jsSplitDots rs).getD 1 "" = String.mk (headComponent rest) := by
    rcases hr : splitAtFirstDotsChars rest with _ | ⟨q, r2⟩
    · have hcr : containsDots rest = false := by
        rw [← Bool.not_eq_true, containsDots_iff_splitAtFirst, hr]
        simp
      simp [jsSplitDots, hsplit, containsDots_false_split rest hcr, headComponent, hr]
    · obtain ⟨hsplit2, _, _⟩ := splitAtFirst_spec rest q r2 hr
      simp [jsSplitDots, hsplit, hsplit2, headComponent, hr]
  refine ⟨?_, heq, hcp, by decide⟩
  simp only [resolveCommits, Option.getD, htr, hinc, Bool.and_self, if_pos]
  rw [compareReqFor, hbase, hhd]

/-- Witness for C2 (amended) at the range "abc...def", whose base is "abc"
and head is "def". -/
theorem c2_amended_witness :
    ("abc...def" : String) ≠ "" ∧
    splitAtFirstDotsChars ("abc...def" : String).data = some ("abc".data, "def".data) ∧
    ((resolveCommits "acme" "widgets" "tok" (some "abc...def") none netThreeCommits).1 =
        [compareRequest "acme" "widgets" "tok" (String.mk "abc".data)
          (String.mk (headComponent "def".data))] ∧
      ("abc...def" : String).data = "abc".data ++ dots ++ "def".data ∧
      containsDots "abc".data = false ∧
      jsSplitDots "abc...def" = ["abc", "def"]) :=
  ⟨by decide, by decide,
    c2_amended "acme" "widgets" "tok" "abc...def" none netThreeCommits (by decide)
      "abc".data "def".data (by decide)⟩

/-! ## Claim C1 -/

/-- Counterexample to claim C1: with three resolved targets c1, c2, c3 and a
diff-fetch failure on c2 only, the single run-level catch in
`runCommitReview` receives the error thrown out of the loop, so target c3 —
chronologically after the failing one — is never reviewed and its banner is
never printed. (The third conjunct records the banner line that a review of
c3 would have produced.) -/
theorem c1_counterexample :
    (commitProgram (commitEnvRange "a...b") netThreeCommits failOnC2Gen).sessions =
      ["c1", "c2"] ∧
    ¬ ("--- Review for commit c3 ---" ∈
        (commitProgram (commitEnvRange "a...b") netThreeCommits failOnC2Gen).stdout) ∧
    "--- Review for commit c3 ---" ∈ reviewBanner "c3" "review of c3" := by decide

/-- Claim C1 as amended: in commit-by-commit mode, when the generation (or
its diff fetch) fails for one target of the resolved sequence, the failure is
caught by the run-level handler and logged to stderr and the process still
terminates normally (exit status 0); the targets before the failing one are
reviewed and their output printed in the original chronological order, but
the targets after the failing one are not reviewed at all. -/
theorem c1_amended (ow rp tk : String) (commitRange gitSha : Option String)
    (net : Request → HttpResponse) (gen : String → Except String String)
    (txt : String → String) (pre post : List String) (bad e : String)
    (hres : (resolveCommits ow rp tk commitRange gitSha net).2 =
      Except.ok (pre ++ bad :: post))
    (hpre : ∀ c ∈ pre, gen c = Except.ok (txt c))
    (hbad : gen bad = Except.error e) :
    runCommitReview ow rp tk commitRange gitSha net gen =
      { requests := (resolveCommits ow rp tk commitRange gitSha net).1,
        sessions := pre ++ [bad],
        stdout := commitHeader :: bannersFor txt pre,
        stderr := [commitCatchMsg e], exitCode := 0 } := by
  simp only [runCommitReview]
  rw [hres]
  dsimp only
  rw [reviewCommits_fails_at gen txt pre post bad e hpre hbad]

/-- Witness for C1 (amended): the concrete three-target run of the
counterexample, where only target c1 (before the failure) is reviewed. -/
theorem c1_amended_witness :
    (resolveCommits "acme" "widgets" "tok" (some "a...b") none netThreeCommits).2 =
      Except.ok (["c1"] ++ "c2" :: ["c3"]) ∧
    (∀ c ∈ ["c1"], failOnC2Gen c = Except.ok ("review of " ++ c)) ∧
    failOnC2Gen "c2" = Except.error "Failed to fetch commit diff for c2: 404 - Not Found" ∧
    runCommitReview "acme" "widgets" "tok" (some "a...b") none netThreeCommits failOnC2Gen =
      { requests := (resolveCommits "acme" "widgets" "tok" (some "a...b") none
          netThreeCommits).1,
        sessions := ["c1"] ++ ["c2"],
        stdout := commitHeader :: bannersFor (fun c => "review of " ++ c) ["c1"],
        stderr := [commitCatchMsg "Failed to fetch commit diff for c2: 404 - Not Found"],
        exitCode := 0 } :=
  ⟨by decide, by decide, by decide,
    c1_amended "acme" "widgets" "tok" (some "a...b") none netThreeCommits failOnC2Gen
      (fun c => "review of " ++ c) ["c1"] ["c3"] "c2"
      "Failed to fetch commit diff for c2: 404 - Not Found"
      (by decide) (by decide) (by decide)⟩

/-! ## Claim C4 -/

/-- Claim C4: for every range string that does not contain "...", the
resolved target list has length exactly 1 and its single element is the
input string — or the fallback SHA when the primary input is empty or
absent; when neither is available, resolution fails with the
no-commit-specified error and no review session is started. -/
theorem c4_single_target (ow rp tk : String) (commitRange gitSha : Option String)
    (net : Request → HttpResponse) (gen : String → Except String String)
    (hnd : jsIncludesDots (commitRange.getD "") = false) :
    (truthy commitRange = true →
      (resolveCommits ow rp tk commitRange gitSha net).2 =
        Except.ok [commitRange.getD ""]) ∧
    (truthy commitRange = false → truthy gitSha = true →
      (resolveCommits ow rp tk commitRange gitSha net).2 = Except.ok [gitSha.getD ""]) ∧
    (truthy commitRange = false → truthy gitSha = false →
      (resolveCommits ow rp tk commitRange gitSha net).2 =
        Except.error "No commit or commit range found in environment variables." ∧
      (runCommitReview ow rp tk commitRange gitSha net gen).sessions = []) := by
  refine ⟨?_, ?_, ?_⟩
  · intro ht
    simp [resolveCommits, hnd, ht]
  · intro ht hs
    simp [resolveCommits, hnd, ht, hs]
  · intro ht hs
    have hr : (resolveCommits ow rp tk commitRange gitSha net).2 =
        Except.error "No commit or commit range found in environment variables." := by
      simp [resolveCommits, hnd, ht, hs]
    refine ⟨hr, ?_⟩
    simp only [runCommitReview]
    rw [hr]

/-- Witness for C4 at the plain single-commit range "deadbeef". -/
theorem c4_single_target_witness :
    jsIncludesDots ((some "deadbeef").getD "") = false ∧
    truthy (some "deadbeef") = true ∧
    (resolveCommits "acme" "widgets" "tok" (some "deadbeef") none netThreeCommits).2 =
      Except.ok [(some "deadbeef").getD ""] :=
  ⟨by decide, by decide,
    (c4_single_target "acme" "widgets" "tok" (some "deadbeef") none netThreeCommits okGenStr
      (by decide)).1 (by decide)⟩

/-! ## Claim C5 -/

/-- Claim C5: when the compare response carries an empty (or absent) commits
list, commit-range resolution fails and no generation session is started;
the failure is reported on stderr. -/
theorem c5_empty_range (ow rp tk rs : String) (gitSha : Option String)
    (net : Request → HttpResponse) (gen : String → Except String String)
    (hne : rs ≠ "") (hinc : jsIncludesDots rs = true)
    (hok : (net (compareReqFor ow rp tk rs)).ok = true)
    (hempty : (net (compareReqFor ow rp tk rs)).commitsField = none ∨
      (net (compareReqFor ow rp tk rs)).commitsField = some []) :
    (∃ m, (resolveCommits ow rp tk (some rs) gitSha net).2 = Except.error m) ∧
    (runCommitReview ow rp tk (some rs) gitSha net gen).sessions = [] ∧
    (runCommitReview ow rp tk (some rs) gitSha net gen).stderr ≠ [] := by
  have htr : truthy (some rs) = true := by simp [truthy, hne]
  have herr : ∃ m, (resolveCommits ow rp tk (some rs) gitSha net).2 = Except.error m := by
    rcases hempty with hcf | hcf
    · exact ⟨"No commits found in the specified commit range.", by
        simp [resolveCommits, htr, hinc, hok, hcf]⟩
    · exact ⟨"No commits available in the comparison data.", by
        simp [resolveCommits, htr, hinc, hok, hcf]⟩
  obtain ⟨m, hm⟩ := herr
  refine ⟨⟨m, hm⟩, ?_, ?_⟩ <;>
  · simp only [runCommitReview]
    rw [hm]
    try simp

/-- Witness for C5 at the range "a...b" against a host whose compare response
has an empty commits list. -/
theorem c5_empty_range_witness :
    ("a...b" : String) ≠ "" ∧ jsIncludesDots "a...b" = true ∧
    (netEmptyCompare (compareReqFor "acme" "widgets" "tok" "a...b")).ok = true ∧
    (netEmptyCompare (compareReqFor "acme" "widgets" "tok" "a...b")).commitsField = some [] ∧
    ((∃ m, (resolveCommits "acme" "widgets" "tok" (some "a...b") none
        netEmptyCompare).2 = Except.error m) ∧
      (runCommitReview "acme" "widgets" "tok" (some "a...b") none netEmptyCompare
        okGenStr).sessions = [] ∧
      (runCommitReview "acme" "widgets" "tok" (some "a...b") none netEmptyCompare
        okGenStr).stderr ≠ []) :=
  ⟨by decide, by decide, by decide, by decide,
    c5_empty_range "acme" "widgets" "tok" "a...b" none netEmptyCompare okGenStr
      (by decide) (by decide) (by decide) (Or.inr (by decide))⟩

/-! ## Claim C6 -/

/-- Claim C6: for a successful compare response, the sequence of commits
reviewed and reported equals the response's commits list in the same order
(oldest to newest, as returned by the host); nothing is re-sorted. -/
theorem c6_order_preserved (ow rp tk rs : String) (gitSha : Option String)
    (net : Request → HttpResponse) (gen : String → Except String String)
    (txt : String → String) (l : List String)
    (hne : rs ≠ "") (hinc : jsIncludesDots rs = true)
    (hok : (net (compareReqFor ow rp tk rs)).ok = true)
    (hcf : (net (compareReqFor ow rp tk rs)).commitsField = some l) (hl : l ≠ [])
    (hgen : ∀ c ∈ l, gen c = Except.ok (txt c)) :
    (runCommitReview ow rp tk (some rs) gitSha net gen).sessions = l ∧
    (runCommitReview ow rp tk (some rs) gitSha net gen).stdout =
      commitHeader :: (bannersFor txt l ++ [commitFooter]) := by
  have htr : truthy (some rs) = true := by simp [truthy, hne]
  have hres : (resolveCommits ow rp tk (some rs) gitSha net).2 = Except.ok l := by
    simp [resolveCommits, htr, hinc, hok, hcf, hl]
  constructor <;>
  · simp only [runCommitReview]
    rw [hres]
    dsimp only
    rw [reviewCommits_all_ok gen txt l hgen]

/-- Witness for C6: the three-commit compare response is reviewed as c1, c2,
c3 in that order. -/
theorem c6_order_preserved_witness :
    ("a...b" : String) ≠ "" ∧ jsIncludesDots "a...b" = true ∧
    (netThreeCommits (compareReqFor "acme" "widgets" "tok" "a...b")).ok = true ∧
    (netThreeCommits (compareReqFor "acme" "widgets" "tok" "a...b")).commitsField =
      some ["c1", "c2", "c3"] ∧
    (∀ c ∈ ["c1", "c2", "c3"], okGenStr c = Except.ok ("review of " ++ c)) ∧
    ((runCommitReview "acme" "widgets" "tok" (some "a...b") none netThreeCommits
        okGenStr).sessions = ["c1", "c2", "c3"] ∧
      (runCommitReview "acme" "widgets" "tok" (some "a...b") none netThreeCommits
        okGenStr).stdout =
        commitHeader :: (bannersFor (fun c => "review of " ++ c) ["c1", "c2", "c3"] ++
          [commitFooter])) :=
  ⟨by decide, by decide, by decide, by decide, by decide,
    c6_order_preserved "acme" "widgets" "tok" "a...b" none netThreeCommits okGenStr
      (fun c => "review of " ++ c) ["c1", "c2", "c3"]
      (by decide) (by decide) (by decide) (by decide) (by decide) (by decide)⟩

/-! ## Claim C8 -/

/-- Claim C8: in each of the three modes, when a required configuration value
(owner identity, repository identity, access credential — and, for the
release variant, the model-provider credential) is absent or empty, the
module-level check throws, so the run aborts with a configuration error on
stderr and exit status 1, no network request is issued and no generation
session (the only other source of network activity) is started. -/
theorem c8_config_abort (e1 : PrEnv) (a2 : Option String)
    (g1 : Int → Except String String) (e2 : CommitEnv) (net : Request → HttpResponse)
    (g2 : String → Except String String) (e3 : ReleaseEnv)
    (g3 : Unit → Except String String) :
    ((truthy e1.GITHUB_OWNER = false ∨ truthy e1.GITHUB_REPO = false ∨
        truthy e1.GITHUB_TOKEN = false) →
      (prProgram e1 a2 g1).requests = [] ∧ (prProgram e1 a2 g1).sessions = [] ∧
      (prProgram e1 a2 g1).exitCode = 1 ∧ (prProgram e1 a2 g1).stderr ≠ []) ∧
    ((truthy e2.GITHUB_OWNER = false ∨ truthy e2.GITHUB_REPO = false ∨
        truthy e2.GITHUB_TOKEN = false) →
      (commitProgram e2 net g2).requests = [] ∧ (commitProgram e2 net g2).sessions = [] ∧
      (commitProgram e2 net g2).exitCode = 1 ∧ (commitProgram e2 net g2).stderr ≠ []) ∧
    ((truthy e3.GITHUB_OWNER = false ∨ truthy e3.GITHUB_REPO = false ∨
        truthy e3.GITHUB_TOKEN = false ∨ truthy e3.OPENAI_API_KEY = false) →
      (releaseProgram e3 g3).requests = [] ∧ (releaseProgram e3 g3).sessions = [] ∧
      (releaseProgram e3 g3).exitCode = 1 ∧ (releaseProgram e3 g3).stderr ≠ []) := by
  refine ⟨?_, ?_, ?_⟩
  · intro h
    cases ho : truthy e1.GITHUB_OWNER with
    | false => simp [prProgram, ho, configAbort]
    | true =>
      cases hr : truthy e1.GITHUB_REPO with
      | false => simp [prProgram, ho, hr, configAbort]
      | true =>
        cases ht : truthy e1.GITHUB_TOKEN with
        | false => simp [prProgram, ho, hr, ht, configAbort]
        | true => rcases h with h | h | h <;> simp_all
  · intro h
    cases ho : truthy e2.GITHUB_OWNER with
    | false => simp [commitProgram, ho, configAbort]
    | true =>
      cases hr : truthy e2.GITHUB_REPO with
      | false => simp [commitProgram, ho, hr, configAbort]
      | true =>
        cases ht : truthy e2.GITHUB_TOKEN with
        | false => simp [commitProgram, ho, hr, ht, configAbort]
        | true => rcases h with h | h | h <;> simp_all
  · intro h
    cases ho : truthy e3.GITHUB_OWNER with
    | false => simp [releaseProgram, ho, configAbort]
    | true =>
      cases hr : truthy e3.GITHUB_REPO with
      | false => simp [releaseProgram, ho, hr, configAbort]
      | true =>
        cases ht : truthy e3.GITHUB_TOKEN with
        | false => simp [releaseProgram, ho, hr, ht, configAbort]
        | true =>
          cases hk : truthy e3.OPENAI_API_KEY with
          | false => simp [releaseProgram, ho, hr, ht, hk, configAbort]
          | true => rcases h with h | h | h | h <;> simp_all

/-- Environments with every configuration value absent, for the C8 witness. -/
def emptyPrEnv : PrEnv := ⟨none, none, none⟩

/-- Commit-mode environment with every configuration value absent. -/
def emptyCommitEnv : CommitEnv := ⟨none, none, none, none, none⟩

/-- Release-mode environment with every configuration value absent. -/
def emptyReleaseEnv : ReleaseEnv := ⟨none, none, none, none⟩

/-- Witness for C8: with every environment variable absent, all three modes
abort with zero network requests and zero sessions. -/
theorem c8_config_abort_witness :
    truthy (none : Option String) = false ∧
    ((prProgram emptyPrEnv none okGenInt).requests = [] ∧
      (prProgram emptyPrEnv none okGenInt).sessions = [] ∧
      (prProgram emptyPrEnv none okGenInt).exitCode = 1 ∧
      (prProgram emptyPrEnv none okGenInt).stderr ≠ []) ∧
    ((commitProgram emptyCommitEnv netThreeCommits okGenStr).requests = [] ∧
      (commitProgram emptyCommitEnv netThreeCommits okGenStr).sessions = [] ∧
      (commitProgram emptyCommitEnv netThreeCommits okGenStr).exitCode = 1 ∧
      (commitProgram emptyCommitEnv netThreeCommits okGenStr).stderr ≠ []) ∧
    ((releaseProgram emptyReleaseEnv okGenUnit).requests = [] ∧
      (releaseProgram emptyReleaseEnv okGenUnit).sessions = [] ∧
      (releaseProgram emptyReleaseEnv okGenUnit).exitCode = 1 ∧
      (releaseProgram emptyReleaseEnv okGenUnit).stderr ≠ []) :=
  ⟨by decide,
    (c8_config_abort emptyPrEnv none okGenInt emptyCommitEnv netThreeCommits okGenStr
      emptyReleaseEnv okGenUnit).1 (Or.inl (by decide)),
    (c8_config_abort emptyPrEnv none okGenInt emptyCommitEnv netThreeCommits okGenStr
      emptyReleaseEnv okGenUnit).2.1 (Or.inl (by decide)),
    (c8_config_abort emptyPrEnv none okGenInt emptyCommitEnv netThreeCommits okGenStr
      emptyReleaseEnv okGenUnit).2.2 (Or.inl (by decide))⟩

/-! ## Claim C10 -/

/-- Claim C10 (implicit): once startup validation has passed, each of the
three modes runs its entire body inside a try/catch whose handler logs to
stderr and returns, so every post-startup failure (fetch, resolution or
generation) yields a message on stderr and a normal process termination with
exit status 0 — no post-startup failure produces a non-zero exit status. -/
theorem c10_top_level_catch (e1 : PrEnv) (a2 : Option String)
    (g1 : Int → Except String String) (n : Int) (e2 : CommitEnv)
    (net : Request → HttpResponse) (g2 : String → Except String String)
    (e3 : ReleaseEnv) (g3 : Unit → Except String String)
    (h1 : truthy e1.GITHUB_OWNER = true) (h2 : truthy e1.GITHUB_REPO = true)
    (h3 : truthy e1.GITHUB_TOKEN = true) (h4 : truthy a2 = true)
    (h5 : jsParseInt10 (a2.getD "") = some n)
    (k1 : truthy e2.GITHUB_OWNER = true) (k2 : truthy e2.GITHUB_REPO = true)
    (k3 : truthy e2.GITHUB_TOKEN = true)
    (m1 : truthy e3.GITHUB_OWNER = true) (m2 : truthy e3.GITHUB_REPO = true)
    (m3 : truthy e3.GITHUB_TOKEN = true) (m4 : truthy e3.OPENAI_API_KEY = true) :
    ((prProgram e1 a2 g1).exitCode = 0 ∧
      ((prProgram e1 a2 g1).stderr = [] ∨
        ∃ m, (prProgram e1 a2 g1).stderr = ["Error running code review agent: " ++ m])) ∧
    ((commitProgram e2 net g2).exitCode = 0 ∧
      ((commitProgram e2 net g2).stderr = [] ∨
        ∃ m, (commitProgram e2 net g2).stderr = [commitCatchMsg m])) ∧
    ((releaseProgram e3 g3).exitCode = 0 ∧
      ((releaseProgram e3 g3).stderr = [] ∨
        ∃ m, (releaseProgram e3 g3).stderr = ["Error generating release notes: " ++ m])) := by
  refine ⟨?_, ?_, ?_⟩
  · have hpr : prProgram e1 a2 g1 = runCodeReview g1 n := by
      simp [prProgram, h1, h2, h3, h4, h5]
    rw [hpr]
    cases hg : g1 n with
    | ok t => simp [runCodeReview, hg]
    | error e => exact ⟨by simp [runCodeReview, hg], Or.inr ⟨e, by simp [runCodeReview, hg]⟩⟩
  · have hcp : commitProgram e2 net g2 =
        runCommitReview (e2.GITHUB_OWNER.getD "") (e2.GITHUB_REPO.getD "")
          (e2.GITHUB_TOKEN.getD "") e2.SEMAPHORE_GIT_COMMIT_RANGE e2.SEMAPHORE_GIT_SHA
          net g2 := by
      simp [commitProgram, k1, k2, k3]
    rw [hcp]
    rcases hres : (resolveCommits (e2.GITHUB_OWNER.getD "") (e2.GITHUB_REPO.getD "")
        (e2.GITHUB_TOKEN.getD "") e2.SEMAPHORE_GIT_COMMIT_RANGE e2.SEMAPHORE_GIT_SHA
        net).2 with e | commits
    · refine ⟨?_, Or.inr ⟨e, ?_⟩⟩ <;>
      · simp only [runCommitReview]
        rw [hres]
    · rcases hthr : (reviewCommits g2 commits).thrown with _ | e
      · refine ⟨?_, Or.inl ?_⟩ <;>
        · simp only [runCommitReview]
          rw [hres]
          dsimp only
          rw [hthr]
      · refine ⟨?_, Or.inr ⟨e, ?_⟩⟩ <;>
        · simp only [runCommitReview]
          rw [hres]
          dsimp only
          rw [hthr]
  · have hrl : releaseProgram e3 g3 = generateReleaseNotes g3 := by
      simp [releaseProgram, m1, m2, m3, m4]
    rw [hrl]
    cases hg : g3 () with
    | ok t => simp [generateReleaseNotes, hg]
    | error e =>
      exact ⟨by simp [generateReleaseNotes, hg],
        Or.inr ⟨e, by simp [generateReleaseNotes, hg]⟩⟩

/-- Full environments for the C10 witness. -/
def fullCommitEnv : CommitEnv :=
  { GITHUB_OWNER := some "acme", GITHUB_REPO := some "widgets", GITHUB_TOKEN := some "tok",
    SEMAPHORE_GIT_SHA := none, SEMAPHORE_GIT_COMMIT_RANGE := some "a...b" }

/-- Release-mode environment with every configuration value present. -/
def fullReleaseEnv : ReleaseEnv :=
  { GITHUB_OWNER := some "acme", GITHUB_REPO := some "widgets", GITHUB_TOKEN := some "tok",
    OPENAI_API_KEY := some "sk" }

/-- A PR-mode generation oracle that always throws, exercising the catch. -/
def failGenInt : Int → Except String String := fun _ => Except.error "boom"

/-- Witness for C10: all startup hypotheses hold at concrete full
environments (with a failing PR-mode generation, whose error is logged and
still yields exit status 0). -/
theorem c10_top_level_catch_witness :
    truthy fullPrEnv.GITHUB_OWNER = true ∧ truthy (some "7") = true ∧
    jsParseInt10 ((some "7").getD "") = some 7 ∧
    (((prProgram fullPrEnv (some "7") failGenInt).exitCode = 0 ∧
        ((prProgram fullPrEnv (some "7") failGenInt).stderr = [] ∨
          ∃ m, (prProgram fullPrEnv (some "7") failGenInt).stderr =
            ["Error running code review agent: " ++ m])) ∧
      ((commitProgram fullCommitEnv netThreeCommits okGenStr).exitCode = 0 ∧
        ((commitProgram fullCommitEnv netThreeCommits okGenStr).stderr = [] ∨
          ∃ m, (commitProgram fullCommitEnv netThreeCommits okGenStr).stderr =
            [commitCatchMsg m])) ∧
      ((releaseProgram fullReleaseEnv okGenUnit).exitCode = 0 ∧
        ((releaseProgram fullReleaseEnv okGenUnit).stderr = [] ∨
          ∃ m, (releaseProgram fullReleaseEnv okGenUnit).stderr =
            ["Error generating release notes: " ++ m]))) :=
  ⟨by decide, by decide, by decide,
    c10_top_level_catch fullPrEnv (some "7") failGenInt 7 fullCommitEnv netThreeCommits
      okGenStr fullReleaseEnv okGenUnit (by decide) (by decide) (by decide) (by decide)
      (by decide) (by decide) (by decide) (by decide) (by decide) (by decide) (by decide)
      (by decide)⟩

end CodeReview
